import Mathlib

/-!
Verification development for the teacher-substitute application backend.

The Python source (backend/routers/timetable.py, backend/routers/absence.py,
backend/models.py) is shallowly embedded below: the spreadsheet is a grid of
optional strings (`none` models a pandas NaN cell), the relational store is a
record of lists, and each Python helper is translated to an executable Lean
function of the same name.  Regular expressions are translated to explicit
character-list scanners; every scanner is deterministic because in each
pattern the greedy sub-matches are over disjoint character classes, so no
backtracking can produce a different result.  All inputs of interest are
ASCII, and the character classes (`\s`, `\d`, `[A-Z]`, `\w`) are modelled at
their ASCII meaning.
-/

namespace TSA

/-! ### Python string primitives -/

/-- ASCII whitespace as recognised by Python `str.strip` / `\s`. -/
def pyIsSpace (c : Char) : Bool :=
  c == ' ' || c == '\t' || c == '\n' || c == '\r' || c == '\x0b' || c == '\x0c'

/-- Python `str.strip()` on a character list. -/
def pyStrip (cs : List Char) : List Char :=
  ((cs.dropWhile pyIsSpace).reverse.dropWhile pyIsSpace).reverse

/-- Python `str.strip()`. -/
def pyStripS (s : String) : String := String.mk (pyStrip s.data)

/-- Python `str.upper()` (ASCII). -/
def pyUpperS (s : String) : String := String.mk (s.data.map Char.toUpper)

/-- Word character for the `\b` boundary of Python regexes (ASCII `\w`). -/
def isWordChar (c : Char) : Bool := c.isAlpha || c.isDigit || c == '_'

/-- Is `n` a prefix of `h` (character lists)? -/
def isPre : List Char → List Char → Bool
  | [], _ => true
  | _ :: _, [] => false
  | a :: as, b :: bs => a == b && isPre as bs

/-- Does `p` hold of some suffix of the list (including the empty suffix)? -/
def anySuffix (p : List Char → Bool) : List Char → Bool
  | [] => p []
  | c :: rest => p (c :: rest) || anySuffix p rest

/-- Python `needle in hay` substring test. -/
def containsSubstr (hay needle : String) : Bool :=
  anySuffix (isPre needle.data) hay.data

/-! ### Regex scanners used by `is_teacher_name_cell` (timetable.py:66-109) -/

/-- After the literal `HRT`: `\s*-?\s*\d+[A-Z]` (tail of the rejection
pattern `HRT\s*-?\s*\d+[A-Z]`). -/
def hrtCodeTail (cs : List Char) : Bool :=
  let cs1 := cs.dropWhile pyIsSpace
  let cs2 := match cs1 with
    | '-' :: r => r.dropWhile pyIsSpace
    | _ => cs1
  match cs2 with
  | c :: rest =>
    c.isDigit &&
      (let rest' := rest.dropWhile Char.isDigit
       match rest' with
       | u :: _ => u.isUpper
       | [] => false)
  | [] => false

/-- Does the pattern `HRT\s*-?\s*\d+[A-Z]` match starting at the head? -/
def hrtCodeAt : List Char → Bool
  | 'H' :: 'R' :: 'T' :: rest => hrtCodeTail rest
  | _ => false

/-- Models `re.search(r'HRT\s*-?\s*\d+[A-Z]', s)` as a Bool. -/
def searchHrtCode (s : String) : Bool := anySuffix hrtCodeAt s.data

/-- Matches `:\d\d` immediately at the head. -/
def colonTwoDigits : List Char → Bool
  | ':' :: a :: b :: _ => a.isDigit && b.isDigit
  | _ => false

/-- Does `\d{1,2}:\d{2}` match starting at the head? -/
def timePatAt : List Char → Bool
  | c :: rest =>
    c.isDigit &&
      (colonTwoDigits rest ||
        (match rest with
         | c2 :: r2 => c2.isDigit && colonTwoDigits r2
         | [] => false))
  | [] => false

/-- Models `re.search` of the time pattern (one or two digits, a colon, two digits) as a Bool. -/
def searchTimePat (s : String) : Bool := anySuffix timePatAt s.data

/-- Tail of the class-code patterns after `[\d]+[A-Z]`: optional `/[A-Z]`,
then the continuation `k`. -/
def classCodeSlash (k : List Char → Bool) : List Char → Bool
  | '/' :: c :: rest => c.isUpper && k rest
  | cs => k cs

/-- Matches `[\d]+[A-Z]` then continuation `k` (digits and `[A-Z]` are disjoint, so
the greedy scan is exact). -/
def classCodeCore (k : List Char → Bool) : List Char → Bool
  | c :: rest =>
    c.isDigit &&
      (let rest' := rest.dropWhile Char.isDigit
       match rest' with
       | u :: r2 => u.isUpper && classCodeSlash k r2
       | [] => false)
  | [] => false

/-- Continuation for `\s*\(.*\)$`: skip spaces, require `(`, then any
non-newline characters and a final `)`. -/
def wsParenToEnd (cs : List Char) : Bool :=
  match cs.dropWhile pyIsSpace with
  | '(' :: rest =>
    (match rest.getLast? with
     | some ')' => rest.dropLast.all (fun c => c != '\n')
     | _ => false)
  | _ => false

/-- Models the anchored class-code-with-parenthetical match (digits, an upper-case letter, optional slash code, spaces, a parenthesized tail) as a Bool. -/
def matchClassCodeParen (s : String) : Bool := classCodeCore wsParenToEnd s.data

/-- Models the anchored bare class-code match (digits, an upper-case letter, optional slash code) as a Bool. -/
def matchClassCode (s : String) : Bool :=
  classCodeCore (fun cs => cs.isEmpty) s.data

/-- Scanner for `str.split()`: `acc` is the current word, reversed. -/
def pyWordsGo : List Char → List Char → List String
  | acc, [] => if acc.isEmpty then [] else [String.mk acc.reverse]
  | acc, c :: t =>
    if pyIsSpace c then
      if acc.isEmpty then pyWordsGo [] t
      else String.mk acc.reverse :: pyWordsGo [] t
    else pyWordsGo (c :: acc) t

/-- Python `str.split()` (split on whitespace runs, dropping empties). -/
def pyWords (s : String) : List String := pyWordsGo [] s.data

/-! ### `is_teacher_name_cell` (timetable.py:66-109) -/

def single_word_rejects : List String :=
  ["READING", "ART", "MUSIC", "DANCE", "KARATE", "YOGA", "SPORTS",
   "PE", "LIBRARY", "CRAFT", "DRAMA", "THEATER", "BAND", "CHOIR"]

def weekdayNames7 : List String :=
  ["Monday", "Tuesday", "Wednesday", "Thursday", "Friday", "Saturday", "Sunday"]

/-- Translation of `is_teacher_name_cell` from timetable.py, clause by clause. -/
def is_teacher_name_cell (cell0 : String) : Bool :=
  let cell := pyStripS cell0
  if cell == "" || cell == "nan" then false
  else if searchHrtCode cell then false
  else if containsSubstr cell "NON-HRT" then false
  else if weekdayNames7.contains cell then false
  else if searchTimePat cell then false
  else if matchClassCodeParen cell then false
  else if single_word_rejects.contains (pyUpperS cell) then false
  else if matchClassCode cell then false
  else
    let words := pyWords cell
    if containsSubstr (pyUpperS cell) "HRT" then true
    else if words.length < 2 then false
    else if words.all (fun w => w.length ≤ 2) then false
    else true

/-! ### `clean_teacher_name` (timetable.py:111-122) -/

/-- Try to match `\bHRT\b\s*-?\s*` (case-insensitive) at the head of `cs`;
`prevIsWord` says whether the character just before `cs` is a word
character (for the leading `\b`).  Returns the remainder on success. -/
def tryHrtSub (prevIsWord : Bool) (cs : List Char) : Option (List Char) :=
  if prevIsWord then none
  else
    match cs with
    | h :: r :: t :: rest =>
      if h.toUpper == 'H' && r.toUpper == 'R' && t.toUpper == 'T' &&
          (match rest with
           | [] => true
           | c :: _ => !isWordChar c) then
        let r1 := rest.dropWhile pyIsSpace
        let r2 := match r1 with
          | '-' :: rr => rr.dropWhile pyIsSpace
          | _ => r1
        some r2
      else none
    | _ => none

/-- Left-to-right scan applying `re.sub(r'\bHRT\b\s*-?\s*', '', ., re.I)`.
Fuel is the input length; a successful match always consumes at least three
characters, so the fuel never runs out on the reachable paths. -/
def hrtSubGo : Nat → Bool → List Char → List Char
  | _, _, [] => []
  | 0, _, cs => cs
  | fuel + 1, prev, c :: t =>
    match tryHrtSub prev (c :: t) with
    | some rest => hrtSubGo fuel false rest
    | none => c :: hrtSubGo fuel (isWordChar c) t

def hrtSub (cs : List Char) : List Char := hrtSubGo cs.length false cs

/-- Try to match `\s*\([^)]*\)` at the head of `cs`; returns the remainder
on success. -/
def tryParenSub (cs : List Char) : Option (List Char) :=
  match cs.dropWhile pyIsSpace with
  | '(' :: r =>
    (match r.dropWhile (fun c => c != ')') with
     | ')' :: r2 => some r2
     | _ => none)
  | _ => none

/-- Models `re.sub` removing parenthesized annotations with leading spaces (timetable.py:115). -/
def parenSubGo : Nat → List Char → List Char
  | _, [] => []
  | 0, cs => cs
  | fuel + 1, c :: t =>
    match tryParenSub (c :: t) with
    | some rest => parenSubGo fuel rest
    | none => c :: parenSubGo fuel t

def parenSub (cs : List Char) : List Char := parenSubGo cs.length cs

/-- The character class `[\d,A-Z/\s]` of the trailing-codes pattern. -/
def dashClassChar (c : Char) : Bool :=
  c.isDigit || c == ',' || c.isUpper || c == '/' || pyIsSpace c

/-- Does `\s*-\s*[\d,A-Z/\s]+$` match starting here?  (The class contains
`\s`, so after the dash the pattern is equivalent to a nonempty all-in-class
remainder.) -/
def dashSuffixAt : List Char → Bool
  | [] => false
  | '-' :: rest => !rest.isEmpty && rest.all dashClassChar
  | c :: rest => pyIsSpace c && dashSuffixAt rest

/-- Models the end-anchored trailing-codes removal of timetable.py:116: drop the
suffix at the leftmost position where the end-anchored pattern matches. -/
def dashSub : List Char → List Char
  | [] => []
  | c :: t => if dashSuffixAt (c :: t) then [] else c :: dashSub t

/-- Models `re.sub` removing every slash-uppercase pair (timetable.py:121). -/
def slashSub : List Char → List Char
  | '/' :: c :: rest =>
    if c.isUpper then slashSub rest else '/' :: slashSub (c :: rest)
  | c :: rest => c :: slashSub rest
  | [] => []

/-- Translation of `clean_teacher_name` from timetable.py:111-122. -/
def clean_teacher_name (raw_name : String) : String :=
  let n := pyStrip raw_name.data
  let n := pyStrip (hrtSub n)
  let n := pyStrip (parenSub n)
  let n := pyStrip (dashSub n)
  let n := if n.contains ',' then pyStrip (n.takeWhile (fun c => c != ',')) else n
  let n := pyStrip (slashSub n)
  String.mk n

/-! ### Email synthesis -/

/-- The class `[a-z0-9._-]` kept by `generate_valid_email`. -/
def emailAllowed (c : Char) : Bool :=
  ('a' ≤ c && c ≤ 'z') || c.isDigit || c == '.' || c == '_' || c == '-'

def isDotDash (c : Char) : Bool := c == '.' || c == '-'

/-- Python `str.strip('.-')`. -/
def stripDotDash (l : List Char) : List Char :=
  ((l.dropWhile isDotDash).reverse.dropWhile isDotDash).reverse

/-- Computes `name.lower().replace(' ', '')` — the steps shared by
`generate_valid_email` (timetable.py:126-127) and the inline email
synthesis of `report_full_day_absence` (absence.py:105). -/
def pyLowerNoSpace (s : String) : List Char :=
  (s.data.map Char.toLower).filter (fun c => c != ' ')

/-- Translation of `generate_valid_email` from timetable.py:124-134. -/
def generate_valid_email (teacher_name : String) : String :=
  let l := pyLowerNoSpace teacher_name
  let l := l.filter emailAllowed
  let l := stripDotDash l
  let l := if l.isEmpty then "teacher".data else l
  String.mk l ++ "@school.edu"

/-- The inline email synthesis of `report_full_day_absence`
(absence.py:105): lower-case, remove spaces, append domain. -/
def absence_teacher_email (teacher_name : String) : String :=
  String.mk (pyLowerNoSpace teacher_name) ++ "@school.edu"

/-! ### `parse_time_slot` (timetable.py:136-151) -/

/-- The separator class of `re.split(r'\s*[-...]\s*', .)`: a plain hyphen or
one of the three mojibake characters that encode an en-dash in the source
file (U+00E2, U+20AC, U+201C). -/
def isDashSep (c : Char) : Bool :=
  c == '-' || c == Char.ofNat 0xE2 || c == Char.ofNat 0x20AC || c == Char.ofNat 0x201C

/-- Try to match one separator `\s*[-…]\s*` at the head; returns the
remainder after the separator. -/
def trySep (cs : List Char) : Option (List Char) :=
  match cs.dropWhile pyIsSpace with
  | c :: rest => if isDashSep c then some (rest.dropWhile pyIsSpace) else none
  | [] => none

def splitDashGo : Nat → List Char → List Char → List String
  | _, acc, [] => [String.mk acc.reverse]
  | 0, acc, cs => [String.mk (acc.reverse ++ cs)]
  | fuel + 1, acc, c :: t =>
    match trySep (c :: t) with
    | some rest => String.mk acc.reverse :: splitDashGo fuel [] rest
    | none => splitDashGo fuel (c :: acc) t

/-- Models the dash-separated split of `parse_time_slot`. -/
def splitDash (s : String) : List String := splitDashGo s.data.length [] s.data

/-- Python `str.replace('.', ':')` (single-character replacement). -/
def dotToColon (s : String) : String :=
  String.mk (s.data.map (fun c => if c == '.' then ':' else c))

/-- Translation of `parse_time_slot` from timetable.py:136-151. -/
def parse_time_slot (time_str : String) : Option (String × String) :=
  let t := pyStripS time_str
  if containsSubstr (pyUpperS t) "BREAK" || containsSubstr (pyUpperS t) "LUNCH" then
    none
  else
    match splitDash t with
    | [a, b] =>
      let s := dotToColon (pyStripS a)
      let e := dotToColon (pyStripS b)
      if s.data.contains ':' && e.data.contains ':' then some (s, e) else none
    | _ => none

/-! ### The grid (the pandas DataFrame read with `header=None`)

A cell is `Option String`: `none` models a pandas NaN (empty/missing cell;
`str(...)` of it is `"nan"`, `pd.isna` of it is true).  pandas pads ragged
rows with NaN, which `Grid.get` reproduces for out-of-range accesses. -/

structure Grid where
  cells : List (List (Option String))
deriving Repr

def Grid.nrows (g : Grid) : Nat := g.cells.length

def Grid.ncols (g : Grid) : Nat := (g.cells.map List.length).foldr max 0

def Grid.get (g : Grid) (r c : Nat) : Option String :=
  (((g.cells.get? r).getD []).get? c).getD none

/-- Python `str(cell)`: NaN prints as `"nan"`. -/
def cellStr : Option String → String
  | none => "nan"
  | some s => s

/-! ### `parse_subject_mapping` (timetable.py:19-43) -/

def subjectNames : List String :=
  ["English", "Maths", "Mathematics", "Science", "Social Studies",
   "Hindi", "Co-Curricular", "Reading", "Art", "Music", "Dance",
   "Physical Education", "Computer Science", "EVS"]

def weekdayNames5 : List String :=
  ["Monday", "Tuesday", "Wednesday", "Thursday", "Friday"]

/-- Insert into the teacher-to-subject dict (later assignment overwrites). -/
def subjInsert (k v : String) (m : List (String × String)) : List (String × String) :=
  if m.any (fun p => p.1 == k) then
    m.map (fun p => if p.1 == k then (k, v) else p)
  else m ++ [(k, v)]

/-- Dict lookup. -/
def subjLookup (k : String) (m : List (String × String)) : Option String :=
  (m.find? (fun p => p.1 == k)).map (fun p => p.2)

/-- One step of the subject-mapping scan over a cell. -/
def subjStep (acc : Option String × List (String × String)) (cell : String)
    : Option String × List (String × String) :=
  let (cur, m) := acc
  if cell == "" || cell == "nan" then acc
  else if subjectNames.contains cell then (some cell, m)
  else
    match cur with
    | some subj =>
      if cell != "" && !(weekdayNames5.any (fun d => containsSubstr cell d)) then
        (cur, subjInsert cell subj m)
      else acc
    | none => acc

/-- All cells in row-major order, as Python sees them (`str(...).strip()`). -/
def Grid.cellsRowMajor (g : Grid) : List String :=
  ((List.range g.nrows).map (fun r =>
    (List.range g.ncols).map (fun c => pyStripS (cellStr (g.get r c))))).flatten

/-- Translation of `parse_subject_mapping` from timetable.py:19-43. -/
def parse_subject_mapping (g : Grid) : List (String × String) :=
  (g.cellsRowMajor.foldl subjStep (none, [])).2

/-! ### `get_subject_from_mapping_or_class` (timetable.py:45-64) -/

/-- Models the parenthetical removal without leading spaces — like `parenSub` but without the leading
`\s*` (this variant is used for the class-code normalisation). -/
def tryParenBare (cs : List Char) : Option (List Char) :=
  match cs with
  | '(' :: r =>
    (match r.dropWhile (fun c => c != ')') with
     | ')' :: r2 => some r2
     | _ => none)
  | _ => none

def parenBareGo : Nat → List Char → List Char
  | _, [] => []
  | 0, cs => cs
  | fuel + 1, c :: t =>
    match tryParenBare (c :: t) with
    | some rest => parenBareGo fuel rest
    | none => c :: parenBareGo fuel t

def parenBare (cs : List Char) : List Char := parenBareGo cs.length cs

def coCurricularKeys : List String :=
  ["DANCE", "DAN", "ART", "MUSIC", "BAND", "CACA", "PE", "PHYSICAL"]

/-- Translation of `get_subject_from_mapping_or_class` from timetable.py:45-64. -/
def get_subject_from_mapping_or_class (teacher_name class_name : String)
    (subject_mapping : List (String × String)) : String :=
  match subjLookup teacher_name subject_mapping with
  | some s => s
  | none =>
    let cn := pyStripS (pyUpperS class_name)
    let clean := String.mk (pyStrip (parenBare cn.data))
    if coCurricularKeys.any (fun x => containsSubstr cn x) then "Co-Curricular"
    else if cn == "READING" || containsSubstr cn "LIBRARY" then "Reading"
    else if ["2A", "2B", "2C", "5B", "5A"].contains clean then "English"
    else if isPre "6".data clean.data || isPre "3".data clean.data
            || isPre "4".data clean.data then "Maths"
    else "Miscellaneous"

/-! ### `find_weekday_row` (timetable.py:153-164) -/

/-- The inner condition at one `(r, c)`: the cell is `"Monday"`, there are
at least four more columns, and `"Tuesday"` is among the next four cells. -/
def weekdayHit (g : Grid) (r c : Nat) : Bool :=
  pyStripS (cellStr (g.get r c)) == "Monday" &&
  c + 4 < g.ncols &&
  ((List.range 4).map (fun i => pyStripS (cellStr (g.get r (c + 1 + i))))).contains "Tuesday"

/-- Translation of `find_weekday_row` from timetable.py:153-164: first hit in row-major
order over rows `start_row ..< min (start_row + search_range) nrows`. -/
def find_weekday_row (g : Grid) (start_row search_range : Nat) : Option (Nat × Nat) :=
  (((List.range (min (start_row + search_range) g.nrows)).drop start_row)).findSome?
    (fun r => ((List.range g.ncols).find? (fun c => weekdayHit g r c)).map
      (fun c => (r, c)))

/-! ### The data model (models.py) -/

structure Teacher where
  id : Nat
  name : String
  email : String
  sub_workload : Nat
  is_admin : Bool
deriving Repr, DecidableEq

structure TimetableEntry where
  id : Nat
  teacher_id : Nat
  day_of_week : String
  start_time : String
  end_time : String
  class_name : String
  subject : String
  is_free : Bool
deriving Repr, DecidableEq

/-- A proleptic-Gregorian calendar date (Python `datetime.date`). -/
structure PyDate where
  year : Nat
  month : Nat
  day : Nat
deriving Repr, DecidableEq

structure AbsenceLog where
  id : Nat
  absent_teacher_id : Nat
  date : PyDate
  start_time : String
  end_time : String
  status : String
  reason : Option String
deriving Repr, DecidableEq

/-- Model of `SubstitutionHistory` (models.py:63-76); the wall-clock `timestamp`
column is not modelled. -/
structure SubstitutionHistory where
  id : Nat
  absence_id : Nat
  substitute_id : Nat
  class_name : String
  subject : String
deriving Repr, DecidableEq

/-- The relational store, with the autoincrement counters of the four
tables made explicit. -/
structure Store where
  teachers : List Teacher
  entries : List TimetableEntry
  absence_logs : List AbsenceLog
  history : List SubstitutionHistory
  nextTeacherId : Nat
  nextEntryId : Nat
  nextAbsenceId : Nat
  nextHistoryId : Nat
deriving Repr, DecidableEq

def store0 : Store := ⟨[], [], [], [], 0, 0, 0, 0⟩

/-! ### Teacher-block discovery (timetable.py:184-206) -/

structure Block where
  name : String
  header_row : Nat
  weekday_row : Nat
  time_col : Nat
  monday_col : Nat
deriving Repr, DecidableEq

/-- The candidate test at one cell (timetable.py:188-203). -/
def blockAt (g : Grid) (r c : Nat) : Option Block :=
  let cell := pyStripS (cellStr (g.get r c))
  if is_teacher_name_cell cell then
    match find_weekday_row g (r + 1) 3 with
    | some wk =>
      let teacher_name := clean_teacher_name cell
      if teacher_name != "" && 1 ≤ wk.2 then
        some ⟨teacher_name, r, wk.1, wk.2 - 1, wk.2⟩
      else none
    | none => none
  else none

/-- All teacher blocks, in row-major discovery order. -/
def discoverBlocks (g : Grid) : List Block :=
  ((List.range g.nrows).map (fun r =>
    ((List.range g.ncols).map (fun c => blockAt g r c)).reduceOption)).flatten

/-! ### Entry construction for one block (timetable.py:226-279) -/

/-- The end row of a block: the header row of the first later block, else
the number of rows (timetable.py:226-230). -/
def blockEnd (g : Grid) (blocks : List Block) (b : Block) : Nat :=
  match blocks.find? (fun nb => b.header_row < nb.header_row) with
  | some nb => nb.header_row
  | none => g.nrows

/-- The data rows of a block: `weekday_row + 1 ..< blockEnd`. -/
def blockRows (g : Grid) (blocks : List Block) (b : Block) : List Nat :=
  (List.range (blockEnd g blocks b)).drop (b.weekday_row + 1)

/-- The parsed `(start, end)` of a data row's time cell, or `none` when the
row is skipped (NaN/empty/BREAK/unsplittable) — timetable.py:235-249. -/
def rowSlot (g : Grid) (b : Block) (r : Nat) : Option (String × String) :=
  match g.get r b.time_col with
  | none => none
  | some tcell =>
    let ts := pyStripS tcell
    if ts == "" then none
    else if containsSubstr (pyUpperS ts) "BREAK" then none
    else parse_time_slot ts

/-- The contribution of one weekday column `ic = (day_idx, day_name)` to a
data row: `none` when the column is out of range, the cell is NaN, empty
or a break cell (timetable.py:251-265). -/
def dayCellAt (g : Grid) (b : Block) (r : Nat) (ic : Nat × String) : Option (String × String) :=
  if g.ncols ≤ b.monday_col + ic.1 then none
  else
    match g.get r (b.monday_col + ic.1) with
    | none => none
    | some ccell =>
      let cn := pyStripS ccell
      if cn == "" then none
      else if containsSubstr (pyUpperS cn) "BREAK" then none
      else some (ic.2, cn)

/-- The `(weekday, class)` pairs of a data row over the five weekday
columns (timetable.py:251-265). -/
def rowDayCells (g : Grid) (b : Block) (r : Nat) : List (String × String) :=
  weekdayNames5.enum.filterMap (dayCellAt g b r)

/-- All `(weekday, start, end, class)` tuples of one data row. -/
def rowCells (g : Grid) (b : Block) (r : Nat) : List (String × String × String × String) :=
  match rowSlot g b r with
  | none => []
  | some se => (rowDayCells g b r).map (fun dc => (dc.1, se.1, se.2, dc.2))

/-- All `(weekday, start, end, class)` tuples of a block, in source order. -/
def blockCells (g : Grid) (blocks : List Block) (b : Block)
    : List (String × String × String × String) :=
  ((blockRows g blocks b).map (rowCells g b)).flatten

/-- The `(start, end)` pairs of a block's parsed data rows, in row order. -/
def blockSlotPairs (g : Grid) (blocks : List Block) (b : Block) : List (String × String) :=
  (blockRows g blocks b).filterMap (rowSlot g b)

/-- One persisted `TimetableEntry` (timetable.py:269-277).  The source sets
`is_free=False` unconditionally at timetable.py:276. -/
def mkEntry (m : List (String × String)) (teacher_name : String) (tid eid : Nat)
    (c : String × String × String × String) : TimetableEntry :=
  { id := eid
    teacher_id := tid
    day_of_week := c.1
    start_time := c.2.1
    end_time := c.2.2.1
    class_name := c.2.2.2
    subject := get_subject_from_mapping_or_class teacher_name c.2.2.2 m
    is_free := false }

/-- The entries of one block, with sequential autoincrement ids. -/
def mkEntries (m : List (String × String)) (teacher_name : String) (tid : Nat)
    : Nat → List (String × String × String × String) → List TimetableEntry
  | _, [] => []
  | n, c :: rest => mkEntry m teacher_name tid n c :: mkEntries m teacher_name tid (n + 1) rest

/-! ### Teacher upsert and the ingestion fold (timetable.py:208-290) -/

/-- Find-or-create by email (timetable.py:219-224): the found teacher is
left untouched; a created one gets `sub_workload = 0` (column default) and
`is_admin = False`. -/
def findOrCreateTeacher (st : Store) (name email : String) : Nat × Store :=
  match st.teachers.find? (fun t => t.email == email) with
  | some t => (t.id, st)
  | none =>
    let t : Teacher :=
      { id := st.nextTeacherId, name := name, email := email
        sub_workload := 0, is_admin := false }
    (t.id, { st with teachers := st.teachers ++ [t],
                     nextTeacherId := st.nextTeacherId + 1 })

/-- The teacher id the block's entries are attached to (timetable.py:224). -/
def blockTid (st : Store) (b : Block) : Nat :=
  (findOrCreateTeacher st b.name (generate_valid_email b.name)).1

/-- The store after the block's teacher upsert. -/
def blockStore1 (st : Store) (b : Block) : Store :=
  (findOrCreateTeacher st b.name (generate_valid_email b.name)).2

/-- The `new_entries` list of one block (timetable.py:232-279). -/
def blockNewEntries (g : Grid) (m : List (String × String)) (blocks : List Block)
    (st : Store) (b : Block) : List TimetableEntry :=
  mkEntries m b.name (blockTid st b) ((blockStore1 st b).nextEntryId) (blockCells g blocks b)

/-- Process one block: upsert the teacher, build its entries, persist them
only when nonempty (timetable.py:212-283).  The accumulator carries
`(store, teachers_processed, total_entries)`. -/
def processBlock (g : Grid) (m : List (String × String)) (blocks : List Block)
    (acc : Store × Nat × Nat) (b : Block) : Store × Nat × Nat :=
  let st1 := blockStore1 acc.1 b
  let new_entries := blockNewEntries g m blocks acc.1 b
  if new_entries.isEmpty then (st1, acc.2.1, acc.2.2 + (blockCells g blocks b).length)
  else
    ({ st1 with entries := st1.entries ++ new_entries,
                nextEntryId := st1.nextEntryId + new_entries.length },
     acc.2.1 + 1, acc.2.2 + (blockCells g blocks b).length)

structure IngestResult where
  teachers_processed : Nat
  total_entries : Nat
  subject_mappings : Nat
deriving Repr, DecidableEq

/-- Translation of `parse_teacher_timetables` from timetable.py:166-290 (the file has
already been read into the grid).  Raises when no teacher block is found;
otherwise deletes every existing `TimetableEntry` row and re-inserts the
parsed ones, block by block. -/
def parse_teacher_timetables (st : Store) (g : Grid) : Except String (Store × IngestResult) :=
  let subject_mapping := parse_subject_mapping g
  let blocks := discoverBlocks g
  if blocks.isEmpty then
    .error "No teacher blocks found. Please check the file format."
  else
    let st0 : Store := { st with entries := [] }
    let out := blocks.foldl (processBlock g subject_mapping blocks) (st0, 0, 0)
    .ok (out.1,
         { teachers_processed := out.2.1, total_entries := out.2.2,
           subject_mappings := subject_mapping.length })

/-! ### `find_substitute` (absence.py:20-86) -/

def MAX_SUB_WORKLOAD_PER_WEEK : Nat := 5

/-- Does the teacher have any `TimetableEntry` at exactly this slot?
(absence.py:44-49; the negation defines availability). -/
def hasEntryAt (st : Store) (tid : Nat) (day s e : String) : Bool :=
  st.entries.any (fun en =>
    en.teacher_id == tid && en.day_of_week == day &&
    en.start_time == s && en.end_time == e)

/-- Has the teacher ever taught this subject (any entry, any day)?
(absence.py:67-70). -/
def hasTaughtSubject (st : Store) (tid : Nat) (subject : String) : Bool :=
  st.entries.any (fun en => en.teacher_id == tid && en.subject == subject)

/-- The availability-filtered candidate pool, in store order
(absence.py:34-52). -/
def availableCandidates (st : Store) (absentId : Nat) (day s e : String) : List Teacher :=
  (st.teachers.filter (fun t => t.id != absentId)).filter
    (fun t => !hasEntryAt st t.id day s e)

/-- Stable insertion by `sub_workload`: the new element goes before every
element with a key that is not smaller. -/
def insertByWorkload (t : Teacher) : List Teacher → List Teacher
  | [] => [t]
  | h :: r =>
    if h.sub_workload < t.sub_workload then h :: insertByWorkload t r
    else t :: h :: r

/-- Stable ascending sort by `sub_workload` (Python `list.sort` with
`key=lambda t: t.sub_workload` is a stable ascending sort, absence.py:58). -/
def sortByWorkload (l : List Teacher) : List Teacher := l.foldr insertByWorkload []

/-- Translation of `find_substitute` from absence.py:20-86. -/
def find_substitute (st : Store) (absentId : Nat) (absence_day start_time end_time subject : String)
    : Option Teacher :=
  let available := availableCandidates st absentId absence_day start_time end_time
  if available.isEmpty then none
  else
    let sorted := sortByWorkload available
    let same_subject_subs := sorted.filter (fun t =>
      decide (t.sub_workload < MAX_SUB_WORKLOAD_PER_WEEK) &&
      hasTaughtSubject st t.id subject)
    match same_subject_subs with
    | t :: _ => some t
    | [] =>
      match sorted.filter (fun t => decide (t.sub_workload < MAX_SUB_WORKLOAD_PER_WEEK)) with
      | t :: _ => some t
      | [] => none

/-! ### `report_full_day_absence` (absence.py:96-197) -/

/-- Sakamoto's day-of-week computation for the proleptic Gregorian calendar
(what `datetime.date.strftime('%A')` uses); 0 is Sunday. -/
def dayOfWeekIdx (y m d : Nat) : Nat :=
  let y := if m < 3 then y - 1 else y
  (y + y / 4 - y / 100 + y / 400 +
    [0, 3, 2, 5, 0, 3, 5, 1, 4, 6, 2, 4].getD (m - 1) 0 + d) % 7

def weekdayName (i : Nat) : String :=
  ["Sunday", "Monday", "Tuesday", "Wednesday", "Thursday", "Friday", "Saturday"].getD i ""

/-- Python `date.strftime('%A')` (absence.py:119). -/
def PyDate.weekday (d : PyDate) : String := weekdayName (dayOfWeekIdx d.year d.month d.day)

/-- Python truthiness of the optional `reason` string (`not data.reason`
is true for `None` and for the empty string). -/
def pyTruthyReason : Option String → Bool
  | none => false
  | some r => r != ""

inductive AbsError where
  | teacherNotFound
  | reasonRequired
deriving Repr, DecidableEq

structure PeriodResult where
  period : String
  class_name : String
  subject : String
  substitute : String
deriving Repr, DecidableEq

/-- One loop iteration of the coverage report (absence.py:132-190): insert
the `AbsenceLog` row, run the selector against the current store, and on
success insert the history row and increment the substitute's workload.
The e-mail notification is an external fire-and-forget side effect and is
not modelled. -/
def processPeriod (absentId : Nat) (d : PyDate) (wd status : String) (reason : Option String)
    (acc : Store × List PeriodResult) (en : TimetableEntry) : Store × List PeriodResult :=
  let st := acc.1
  let logId := st.nextAbsenceId
  let log : AbsenceLog :=
    { id := logId, absent_teacher_id := absentId, date := d
      start_time := en.start_time, end_time := en.end_time
      status := status, reason := reason }
  let st1 : Store := { st with absence_logs := st.absence_logs ++ [log],
                               nextAbsenceId := logId + 1 }
  match find_substitute st1 absentId wd en.start_time en.end_time en.subject with
  | none =>
    (st1, acc.2 ++ [{ period := en.start_time ++ "-" ++ en.end_time,
                      class_name := en.class_name, subject := en.subject,
                      substitute := "Not Found" }])
  | some sub =>
    let hist : SubstitutionHistory :=
      { id := st1.nextHistoryId, absence_id := logId, substitute_id := sub.id
        class_name := en.class_name, subject := en.subject }
    let st2 : Store :=
      { st1 with history := st1.history ++ [hist],
                 nextHistoryId := st1.nextHistoryId + 1,
                 teachers := st1.teachers.map (fun t =>
                   if t.id == sub.id then { t with sub_workload := t.sub_workload + 1 } else t) }
    (st2, acc.2 ++ [{ period := en.start_time ++ "-" ++ en.end_time,
                      class_name := en.class_name, subject := en.subject,
                      substitute := sub.name }])

/-- Translation of `report_full_day_absence` from absence.py:96-197.  An error carries the
store as it stood when the exception was raised; since both raises happen
before any insert, that store is always the input store (the session is
rolled back / discarded on error anyway). -/
def report_full_day_absence (st : Store) (teacher_name : String) (absence_date : PyDate)
    (status : String) (reason : Option String)
    : Except (AbsError × Store) (Store × List PeriodResult) :=
  let teacher_email := absence_teacher_email teacher_name
  match st.teachers.find? (fun t => t.email == teacher_email) with
  | none => .error (.teacherNotFound, st)
  | some absent_teacher =>
    if status == "Busy" && !pyTruthyReason reason then
      .error (.reasonRequired, st)
    else
      let absence_weekday := absence_date.weekday
      let scheduled_classes := st.entries.filter (fun en =>
        en.teacher_id == absent_teacher.id &&
        en.day_of_week == absence_weekday &&
        en.is_free == false)
      if scheduled_classes.isEmpty then .ok (st, [])
      else
        let out := scheduled_classes.foldl
          (processPeriod absent_teacher.id absence_date absence_weekday status reason)
          (st, [])
        .ok out

/-! ### Concrete grids and stores used by the claims -/

/-- A weekday header row with a label in the time-slot column. -/
def wkRow (t : String) : List (Option String) :=
  [some t, some "Monday", some "Tuesday", some "Wednesday", some "Thursday", some "Friday"]

/-- One teacher block, one Monday READING period. -/
def c1grid : Grid :=
  ⟨[[none, some "John Smith"],
    wkRow "Time",
    [some "09:00 - 09:40", some "READING"]]⟩

/-- The same teacher name heads two blocks, both with the same Monday
time slot. -/
def c3grid : Grid :=
  ⟨[[none, some "John Smith"],
    wkRow "Time",
    [some "09:00 - 09:40", some "3A"],
    [none, some "John Smith"],
    wkRow "Time",
    [some "09:00 - 09:40", some "4B"]]⟩

/-- A cell with exactly `"HRT - 3A"` immediately above a weekday header
row (the scenario of C4). -/
def c4grid : Grid :=
  ⟨[[none, some "HRT - 3A"],
    wkRow "Time",
    [some "09:00 - 09:40", some "3A"]]⟩

/-- A teacher block whose weekday header is the last row: zero data rows,
hence zero entries. -/
def c5grid : Grid :=
  ⟨[[none, some "John Smith"],
    wkRow "Time"]⟩

/-- The key that the slot-uniqueness invariant is about. -/
def slotKey (e : TimetableEntry) : Nat × String × String × String :=
  (e.teacher_id, e.day_of_week, e.start_time, e.end_time)

def slotKeys (es : List TimetableEntry) : List (Nat × String × String × String) :=
  es.map slotKey

/-- Well-formedness of the store that the database schema guarantees:
primary-key ids and the unique-indexed emails are distinct, and the
autoincrement counter is fresh. -/
def StoreWF (st : Store) : Prop :=
  (st.teachers.map Teacher.id).Nodup ∧
  (st.teachers.map Teacher.email).Nodup ∧
  ∀ t ∈ st.teachers, t.id < st.nextTeacherId

/-- The `(weekday, start, end)` part of a parsed cell tuple. -/
def cellKey3 (c : String × String × String × String) : String × String × String :=
  (c.1, c.2.1, c.2.2.1)

/-- The per-row slot keys of the entries. -/
def rowKeys3 (g : Grid) (b : Block) (r : Nat) : List (String × String × String) :=
  (rowCells g b r).map cellKey3

/-- Every entry's teacher exists in the store and was upserted under one of
the block emails processed so far (`done`). -/
def EntriesLinked (st : Store) (done : List String) : Prop :=
  ∀ e ∈ st.entries, ∃ t ∈ st.teachers, t.id = e.teacher_id ∧ t.email ∈ done

/-- Teachers of the witness store for the selector claims. -/
def wT0 : Teacher := ⟨0, "Jane Doe", "janedoe@school.edu", 0, false⟩
def wT1 : Teacher := ⟨1, "Bob Roe", "bobroe@school.edu", 2, false⟩
def wT2 : Teacher := ⟨2, "Cat Poe", "catpoe@school.edu", 1, false⟩
def wE0 : TimetableEntry := ⟨0, 0, "Monday", "09:00", "09:40", "3A", "Maths", false⟩
def wE1 : TimetableEntry := ⟨1, 2, "Tuesday", "10:00", "10:40", "4B", "Maths", false⟩

/-- Witness store: three teachers, the absent one (id 0) teaches Monday
09:00-09:40, teacher 2 has taught Maths. -/
def wStore : Store := ⟨[wT0, wT1, wT2], [wE0, wE1], [], [], 3, 2, 0, 0⟩

/-- A prior store holding one teacher and one old timetable entry, used to
witness the re-ingestion claims. -/
def c9st : Store := ⟨[wT1], [wE1], [], [], 2, 2, 0, 0⟩

/-- The successful result of re-ingesting `c1grid` over `c9st`. -/
def c9pair : Store × IngestResult :=
  match parse_teacher_timetables c9st c1grid with
  | .ok p => p
  | .error _ => (c9st, ⟨0, 0, 0⟩)

/-- The successful result of ingesting `c1grid` into the empty store. -/
def c3wpair : Store × IngestResult :=
  match parse_teacher_timetables store0 c1grid with
  | .ok p => p
  | .error _ => (store0, ⟨0, 0, 0⟩)

/-- The successful result of ingesting `c3grid` (duplicate blocks) into the
empty store. -/
def c3cpair : Store × IngestResult :=
  match parse_teacher_timetables store0 c3grid with
  | .ok p => p
  | .error _ => (store0, ⟨0, 0, 0⟩)

/-- The successful result of ingesting `c5grid` into the empty store. -/
def c5wpair : Store × IngestResult :=
  match parse_teacher_timetables store0 c5grid with
  | .ok p => p
  | .error _ => (store0, ⟨0, 0, 0⟩)

/-! ## Helper lemmas about the stable workload sort -/

theorem mem_insertByWorkload {a t : Teacher} {l : List Teacher} :
    a ∈ insertByWorkload t l ↔ a = t ∨ a ∈ l := by
  induction l with
  | nil => simp [insertByWorkload]
  | cons h r ih =>
    by_cases hc : h.sub_workload < t.sub_workload
    · simp only [insertByWorkload, if_pos hc, List.mem_cons, ih]
      tauto
    · simp only [insertByWorkload, if_neg hc, List.mem_cons]

theorem mem_sortByWorkload {a : Teacher} {l : List Teacher} :
    a ∈ sortByWorkload l ↔ a ∈ l := by
  induction l with
  | nil => simp [sortByWorkload]
  | cons h r ih =>
    show a ∈ insertByWorkload h (sortByWorkload r) ↔ _
    rw [mem_insertByWorkload, ih, List.mem_cons]

/-- Ascending workload order. -/
def wle (a b : Teacher) : Prop := a.sub_workload ≤ b.sub_workload

theorem pairwise_insertByWorkload {t : Teacher} {l : List Teacher}
    (h : l.Pairwise wle) : (insertByWorkload t l).Pairwise wle := by
  induction l with
  | nil => simp [insertByWorkload, wle]
  | cons hd r ih =>
    rcases List.pairwise_cons.mp h with ⟨hhd, hr⟩
    by_cases hc : hd.sub_workload < t.sub_workload
    · rw [insertByWorkload, if_pos hc]
      refine List.pairwise_cons.mpr ⟨?_, ih hr⟩
      intro x hx
      rcases mem_insertByWorkload.mp hx with rfl | hx'
      · exact Nat.le_of_lt hc
      · exact hhd x hx'
    · rw [insertByWorkload, if_neg hc]
      refine List.pairwise_cons.mpr ⟨?_, h⟩
      intro x hx
      rcases List.mem_cons.mp hx with rfl | hx'
      · exact Nat.le_of_not_lt hc
      · exact Nat.le_trans (Nat.le_of_not_lt hc) (hhd x hx')

theorem pairwise_sortByWorkload (l : List Teacher) :
    (sortByWorkload l).Pairwise wle := by
  induction l with
  | nil => simp [sortByWorkload]
  | cons h r ih => exact pairwise_insertByWorkload ih

/-! ## Helper lemmas about the ingestion fold -/

theorem mkEntries_isEmpty (m : List (String × String)) (nm : String) (tid n : Nat)
    (cs : List (String × String × String × String)) :
    (mkEntries m nm tid n cs).isEmpty = cs.isEmpty := by
  cases cs <;> rfl

theorem mkEntries_mem (m : List (String × String)) (nm : String) (tid : Nat) :
    ∀ (cs : List (String × String × String × String)) (n : Nat) (e : TimetableEntry),
    e ∈ mkEntries m nm tid n cs → n ≤ e.id ∧ e.teacher_id = tid := by
  intro cs
  induction cs with
  | nil => intro n e h; cases h
  | cons c cs ih =>
    intro n e h
    rcases List.mem_cons.mp h with rfl | h'
    · exact ⟨Nat.le_refl _, rfl⟩
    · obtain ⟨h1, h2⟩ := ih (n + 1) e h'
      exact ⟨Nat.le_trans (Nat.le_succ n) h1, h2⟩

theorem slotKeys_mkEntries (m : List (String × String)) (nm : String) (tid : Nat) :
    ∀ (cs : List (String × String × String × String)) (n : Nat),
    slotKeys (mkEntries m nm tid n cs) = cs.map (fun c => (tid, cellKey3 c)) := by
  intro cs
  induction cs with
  | nil => intro n; rfl
  | cons c cs ih =>
    intro n
    show slotKey (mkEntry m nm tid n c) :: slotKeys (mkEntries m nm tid (n + 1) cs) = _
    rw [ih (n + 1), List.map_cons]
    rfl

theorem foc_teachers_mono (st : Store) (n em : String) :
    ∃ ts, ((findOrCreateTeacher st n em).2).teachers = st.teachers ++ ts := by
  unfold findOrCreateTeacher
  cases h : st.teachers.find? (fun t => t.email == em) with
  | some t => exact ⟨[], (List.append_nil _).symm⟩
  | none => exact ⟨_, rfl⟩

theorem foc_entries_eq (st : Store) (n em : String) :
    ((findOrCreateTeacher st n em).2).entries = st.entries ∧
    ((findOrCreateTeacher st n em).2).nextEntryId = st.nextEntryId := by
  unfold findOrCreateTeacher
  cases h : st.teachers.find? (fun t => t.email == em) with
  | some t => exact ⟨rfl, rfl⟩
  | none => exact ⟨rfl, rfl⟩

theorem foc_tid_mem (st : Store) (n em : String) :
    ∃ t ∈ ((findOrCreateTeacher st n em).2).teachers,
      t.id = (findOrCreateTeacher st n em).1 ∧ t.email = em := by
  unfold findOrCreateTeacher
  cases h : st.teachers.find? (fun t => t.email == em) with
  | some t =>
    refine ⟨t, List.mem_of_find?_eq_some h, rfl, ?_⟩
    have hp := List.find?_some h
    exact eq_of_beq hp
  | none =>
    exact ⟨_, List.mem_append_right _ (List.mem_singleton_self _), rfl, rfl⟩

theorem foc_wf (st : Store) (n em : String) (hwf : StoreWF st) :
    StoreWF (findOrCreateTeacher st n em).2 := by
  unfold findOrCreateTeacher
  cases h : st.teachers.find? (fun t => t.email == em) with
  | some t => exact hwf
  | none =>
    obtain ⟨hid, hem, hlt⟩ := hwf
    refine ⟨?_, ?_, ?_⟩
    · rw [List.map_append]
      refine List.Nodup.append hid (by simp) ?_
      intro x hx1 hx2
      simp only [List.map_cons, List.map_nil, List.mem_singleton] at hx2
      subst hx2
      obtain ⟨t, ht, hteq⟩ := List.mem_map.mp hx1
      exact absurd hteq (Nat.ne_of_lt (hlt t ht))
    · rw [List.map_append]
      refine List.Nodup.append hem (by simp) ?_
      intro x hx1 hx2
      simp only [List.map_cons, List.map_nil, List.mem_singleton] at hx2
      subst hx2
      obtain ⟨t, ht, hteq⟩ := List.mem_map.mp hx1
      exact absurd (beq_iff_eq.mpr hteq) (List.find?_eq_none.mp h t ht)
    · intro t ht
      rcases List.mem_append.mp ht with h1 | h2
      · exact Nat.lt_trans (hlt t h1) (Nat.lt_succ_self _)
      · simp only [List.mem_singleton] at h2
        subst h2
        exact Nat.lt_succ_self _

theorem processBlock_store_cases (g : Grid) (m : List (String × String)) (blocks : List Block)
    (acc : Store × Nat × Nat) (b : Block) :
    (processBlock g m blocks acc b).1 = blockStore1 acc.1 b ∨
    (processBlock g m blocks acc b).1 =
      { blockStore1 acc.1 b with
          entries := (blockStore1 acc.1 b).entries ++ blockNewEntries g m blocks acc.1 b,
          nextEntryId := (blockStore1 acc.1 b).nextEntryId +
            (blockNewEntries g m blocks acc.1 b).length } := by
  unfold processBlock
  by_cases hc : (blockNewEntries g m blocks acc.1 b).isEmpty = true
  · rw [if_pos hc]; exact Or.inl rfl
  · rw [if_neg hc]; exact Or.inr rfl

theorem processBlock_teachers (g : Grid) (m : List (String × String)) (blocks : List Block)
    (acc : Store × Nat × Nat) (b : Block) :
    ((processBlock g m blocks acc b).1).teachers = (blockStore1 acc.1 b).teachers := by
  rcases processBlock_store_cases g m blocks acc b with h | h <;> rw [h]

theorem processBlock_teachers_mono (g : Grid) (m : List (String × String)) (blocks : List Block)
    (acc : Store × Nat × Nat) (b : Block) :
    ∃ ts, ((processBlock g m blocks acc b).1).teachers = acc.1.teachers ++ ts := by
  rw [processBlock_teachers]
  exact foc_teachers_mono acc.1 b.name (generate_valid_email b.name)

theorem foldl_teachers_mono (g : Grid) (m : List (String × String)) (blocks : List Block) :
    ∀ (bs : List Block) (acc : Store × Nat × Nat),
    ∃ ts, ((bs.foldl (processBlock g m blocks) acc).1).teachers = acc.1.teachers ++ ts := by
  intro bs
  induction bs with
  | nil => intro acc; exact ⟨[], (List.append_nil _).symm⟩
  | cons b bs ih =>
    intro acc
    obtain ⟨ts1, h1⟩ := processBlock_teachers_mono g m blocks acc b
    obtain ⟨ts2, h2⟩ := ih (processBlock g m blocks acc b)
    refine ⟨ts1 ++ ts2, ?_⟩
    rw [List.foldl_cons, h2, h1, List.append_assoc]

theorem fold_email_present (g : Grid) (m : List (String × String)) (blocks : List Block) :
    ∀ (bs : List Block) (acc : Store × Nat × Nat), ∀ b ∈ bs,
    ∃ t ∈ ((bs.foldl (processBlock g m blocks) acc).1).teachers,
      t.email = generate_valid_email b.name := by
  intro bs
  induction bs with
  | nil => intro acc b hb; cases hb
  | cons b0 bs ih =>
    intro acc b hb
    rw [List.foldl_cons]
    rcases List.mem_cons.mp hb with rfl | hb'
    · obtain ⟨t, htmem, hte⟩ : ∃ t ∈ ((processBlock g m blocks acc b).1).teachers,
          t.email = generate_valid_email b.name := by
        rw [processBlock_teachers]
        obtain ⟨t, ht, _, hte⟩ := foc_tid_mem acc.1 b.name (generate_valid_email b.name)
        exact ⟨t, ht, hte⟩
      obtain ⟨ts, hts⟩ := foldl_teachers_mono g m blocks bs (processBlock g m blocks acc b)
      rw [hts]
      exact ⟨t, List.mem_append_left _ htmem, hte⟩
    · exact ih _ b hb'

theorem processBlock_count_empty (g : Grid) (m : List (String × String)) (blocks : List Block)
    (acc : Store × Nat × Nat) (b : Block)
    (hc : (blockCells g blocks b).isEmpty = true) :
    (processBlock g m blocks acc b).2.1 = acc.2.1 := by
  have hiso : (blockNewEntries g m blocks acc.1 b).isEmpty = true := by
    rw [blockNewEntries, mkEntries_isEmpty]; exact hc
  simp only [processBlock]
  rw [if_pos hiso]

theorem processBlock_count_nonempty (g : Grid) (m : List (String × String)) (blocks : List Block)
    (acc : Store × Nat × Nat) (b : Block)
    (hc : (blockCells g blocks b).isEmpty = false) :
    (processBlock g m blocks acc b).2.1 = acc.2.1 + 1 := by
  have hiso : (blockNewEntries g m blocks acc.1 b).isEmpty = false := by
    rw [blockNewEntries, mkEntries_isEmpty]; exact hc
  simp only [processBlock]
  rw [if_neg (by rw [hiso]; exact Bool.false_ne_true)]

theorem foldl_count (g : Grid) (m : List (String × String)) (blocks : List Block) :
    ∀ (bs : List Block) (acc : Store × Nat × Nat),
    (bs.foldl (processBlock g m blocks) acc).2.1 =
      acc.2.1 + (bs.filter (fun b => !(blockCells g blocks b).isEmpty)).length := by
  intro bs
  induction bs with
  | nil => intro acc; simp
  | cons b bs ih =>
    intro acc
    rw [List.foldl_cons, ih]
    cases hc : (blockCells g blocks b).isEmpty with
    | true =>
      rw [processBlock_count_empty g m blocks acc b hc,
        List.filter_cons_of_neg (by rw [hc]; decide)]
    | false =>
      rw [processBlock_count_nonempty g m blocks acc b hc,
        List.filter_cons_of_pos (by rw [hc]; rfl), List.length_cons]
      omega

theorem processBlock_ids (g : Grid) (m : List (String × String)) (blocks : List Block)
    (lo : Nat) (acc : Store × Nat × Nat) (b : Block)
    (h1 : ∀ e ∈ acc.1.entries, lo ≤ e.id) (h2 : lo ≤ acc.1.nextEntryId) :
    (∀ e ∈ (processBlock g m blocks acc b).1.entries, lo ≤ e.id) ∧
    lo ≤ (processBlock g m blocks acc b).1.nextEntryId := by
  obtain ⟨hent, hnext⟩ := foc_entries_eq acc.1 b.name (generate_valid_email b.name)
  have hent' : (blockStore1 acc.1 b).entries = acc.1.entries := hent
  have hnext' : (blockStore1 acc.1 b).nextEntryId = acc.1.nextEntryId := hnext
  rcases processBlock_store_cases g m blocks acc b with h | h <;> rw [h]
  · exact ⟨fun e he => h1 e (hent' ▸ he), hnext' ▸ h2⟩
  · constructor
    · intro e he
      rcases List.mem_append.mp he with hl | hr

      · exact h1 e (hent' ▸ hl)
      · have := (mkEntries_mem m b.name (blockTid acc.1 b) (blockCells g blocks b)
          ((blockStore1 acc.1 b).nextEntryId) e hr).1
        exact Nat.le_trans (hnext' ▸ h2) this
    · exact Nat.le_trans (hnext' ▸ h2) (Nat.le_add_right _ _)

theorem foldl_ids (g : Grid) (m : List (String × String)) (blocks : List Block) (lo : Nat) :
    ∀ (bs : List Block) (acc : Store × Nat × Nat),
    (∀ e ∈ acc.1.entries, lo ≤ e.id) → lo ≤ acc.1.nextEntryId →
    ∀ e ∈ (bs.foldl (processBlock g m blocks) acc).1.entries, lo ≤ e.id := by
  intro bs
  induction bs with
  | nil => intro acc h1 _ e he; exact h1 e he
  | cons b bs ih =>
    intro acc h1 h2
    rw [List.foldl_cons]
    obtain ⟨h1', h2'⟩ := processBlock_ids g m blocks lo acc b h1 h2
    exact ih _ h1' h2'

/-! ## Slot-key distinctness of a single block -/

theorem pairwise_of_nodup_filterMap {α β : Type} {f : α → Option β} :
    ∀ {l : List α}, (l.filterMap f).Nodup →
    l.Pairwise (fun a b => ∀ x y, f a = some x → f b = some y → x ≠ y) := by
  intro l
  induction l with
  | nil => intro _; exact List.Pairwise.nil
  | cons a l ih =>
    intro h
    cases hfa : f a with
    | none =>
      rw [List.filterMap_cons_none hfa] at h
      refine List.pairwise_cons.mpr ⟨?_, ih h⟩
      intro b _ x y hx _
      rw [hfa] at hx
      cases hx
    | some x0 =>
      rw [List.filterMap_cons_some hfa] at h
      obtain ⟨h1, h2⟩ := List.nodup_cons.mp h
      refine List.pairwise_cons.mpr ⟨?_, ih h2⟩
      intro b hb x y hx hy
      rw [hfa] at hx
      injection hx with hx'
      subst hx'
      intro hxy
      subst hxy
      exact h1 (List.mem_filterMap.mpr ⟨b, hb, hy⟩)

theorem filterMap_fst_sublist {α β γ : Type} (p : α → Option (β × γ)) (f : α → β)
    (hp : ∀ a x, p a = some x → x.1 = f a) :
    ∀ l : List α, ((l.filterMap p).map Prod.fst).Sublist (l.map f) := by
  intro l
  induction l with
  | nil => simp
  | cons a l ih =>
    cases ha : p a with
    | none =>
      rw [List.filterMap_cons_none ha, List.map_cons]
      exact ih.cons (f a)
    | some x =>
      rw [List.filterMap_cons_some ha, List.map_cons, List.map_cons, hp a x ha]
      exact ih.cons₂ (f a)

theorem dayCellAt_fst (g : Grid) (b : Block) (r : Nat) (a : Nat × String)
    (x : String × String) (h : dayCellAt g b r a = some x) : x.1 = a.2 := by
  simp only [dayCellAt] at h
  split at h
  · cases h
  · split at h
    · cases h
    · split at h
      · cases h
      · split at h
        · cases h
        · injection h with h'
          subst h'
          rfl

theorem rowDayCells_fst_nodup (g : Grid) (b : Block) (r : Nat) :
    ((rowDayCells g b r).map Prod.fst).Nodup := by
  have hsub := filterMap_fst_sublist (dayCellAt g b r) (fun ic => ic.2)
    (dayCellAt_fst g b r) weekdayNames5.enum
  have hnd : (weekdayNames5.enum.map (fun ic => ic.2)).Nodup := by decide
  exact List.Nodup.sublist hsub hnd

theorem rowKeys3_eq (g : Grid) (b : Block) (r : Nat) :
    rowKeys3 g b r =
      match rowSlot g b r with
      | none => []
      | some se => (rowDayCells g b r).map (fun dc => (dc.1, se.1, se.2)) := by
  unfold rowKeys3 rowCells
  cases rowSlot g b r with
  | none => rfl
  | some se => rw [List.map_map]; rfl

theorem rowKeys3_nodup (g : Grid) (b : Block) (r : Nat) : (rowKeys3 g b r).Nodup := by
  rw [rowKeys3_eq]
  cases hs : rowSlot g b r with
  | none => exact List.Pairwise.nil
  | some se =>
    have hfst := rowDayCells_fst_nodup g b r
    have hmm : (rowDayCells g b r).map (fun dc => (dc.1, se.1, se.2)) =
        ((rowDayCells g b r).map Prod.fst).map (fun d => (d, se.1, se.2)) := by
      rw [List.map_map]
      rfl
    show ((rowDayCells g b r).map (fun dc => (dc.1, se.1, se.2))).Nodup
    rw [hmm]
    exact hfst.map (fun a b h => congrArg Prod.fst h)

theorem blockKeys3_eq (g : Grid) (blocks : List Block) (b : Block) :
    (blockCells g blocks b).map cellKey3 =
      ((blockRows g blocks b).map (fun r => rowKeys3 g b r)).flatten := by
  unfold blockCells rowKeys3
  rw [List.map_flatten, List.map_map]
  rfl

theorem blockKeys3_nodup (g : Grid) (blocks : List Block) (b : Block)
    (hsp : (blockSlotPairs g blocks b).Nodup) :
    ((blockCells g blocks b).map cellKey3).Nodup := by
  rw [blockKeys3_eq, List.nodup_flatten]
  constructor
  · intro l hl
    obtain ⟨r, _, rfl⟩ := List.mem_map.mp hl
    exact rowKeys3_nodup g b r
  · rw [List.pairwise_map]
    have hsp' : ((blockRows g blocks b).filterMap (rowSlot g b)).Nodup := hsp
    refine (pairwise_of_nodup_filterMap hsp').imp ?_
    intro r1 r2 hrel k hk1 hk2
    rw [rowKeys3_eq] at hk1 hk2
    cases h1 : rowSlot g b r1 with
    | none => rw [h1] at hk1; cases hk1
    | some se1 =>
      rw [h1] at hk1
      cases h2 : rowSlot g b r2 with
      | none => rw [h2] at hk2; cases hk2
      | some se2 =>
        rw [h2] at hk2
        obtain ⟨dc1, _, hkk1⟩ := List.mem_map.mp hk1
        obtain ⟨dc2, _, hkk2⟩ := List.mem_map.mp hk2
        have hk12 : (dc1.1, se1.1, se1.2) = (dc2.1, se2.1, se2.2) := by
          rw [hkk1, ← hkk2]
        have hse : se1 = se2 := congrArg Prod.snd hk12
        exact hrel se1 se2 h1 h2 hse

/-! ## The invariant carried through the ingestion fold -/

theorem processBlock_inv (g : Grid) (m : List (String × String)) (blocks : List Block)
    (b : Block) (done : List String) (acc : Store × Nat × Nat)
    (hspb : (blockSlotPairs g blocks b).Nodup)
    (hwf : StoreWF acc.1)
    (hlink : EntriesLinked acc.1 done)
    (hnd : (slotKeys acc.1.entries).Nodup)
    (hfresh : generate_valid_email b.name ∉ done) :
    StoreWF (processBlock g m blocks acc b).1 ∧
    EntriesLinked (processBlock g m blocks acc b).1 (done ++ [generate_valid_email b.name]) ∧
    (slotKeys (processBlock g m blocks acc b).1.entries).Nodup := by
  obtain ⟨tch, htchmem, htchid, htchem⟩ :=
    foc_tid_mem acc.1 b.name (generate_valid_email b.name)
  have hwf1 : StoreWF (blockStore1 acc.1 b) :=
    foc_wf acc.1 b.name (generate_valid_email b.name) hwf
  obtain ⟨hent1, _⟩ := foc_entries_eq acc.1 b.name (generate_valid_email b.name)
  have hent1' : (blockStore1 acc.1 b).entries = acc.1.entries := hent1
  obtain ⟨ts, hts⟩ := foc_teachers_mono acc.1 b.name (generate_valid_email b.name)
  have hts' : (blockStore1 acc.1 b).teachers = acc.1.teachers ++ ts := hts
  have hlink1 : EntriesLinked (blockStore1 acc.1 b) done := by
    intro e he
    rw [hent1'] at he
    obtain ⟨t, ht, hti, hte⟩ := hlink e he
    exact ⟨t, by rw [hts']; exact List.mem_append_left _ ht, hti, hte⟩
  have hlinkext : EntriesLinked (blockStore1 acc.1 b)
      (done ++ [generate_valid_email b.name]) := by
    intro e he
    obtain ⟨t, ht, hti, hte⟩ := hlink1 e he
    exact ⟨t, ht, hti, List.mem_append_left _ hte⟩
  rcases processBlock_store_cases g m blocks acc b with hcase | hcase
  · rw [hcase]
    refine ⟨hwf1, hlinkext, ?_⟩
    rw [hent1']
    exact hnd
  · rw [hcase]
    have hkeysnew : slotKeys (blockNewEntries g m blocks acc.1 b) =
        ((blockCells g blocks b).map cellKey3).map (fun k => (blockTid acc.1 b, k)) := by
      rw [blockNewEntries, slotKeys_mkEntries, List.map_map]
      rfl
    refine ⟨?_, ?_, ?_⟩
    · exact hwf1
    · intro e he
      simp only [List.mem_append] at he
      rcases he with he | he
      · exact hlinkext e he
      · refine ⟨tch, ?_, ?_, ?_⟩
        · exact htchmem
        · rw [htchid]
          exact ((mkEntries_mem m b.name (blockTid acc.1 b) (blockCells g blocks b)
            ((blockStore1 acc.1 b).nextEntryId) e he).2).symm
        · rw [htchem]
          exact List.mem_append_right _ (List.mem_singleton_self _)
    · show (slotKeys ((blockStore1 acc.1 b).entries ++ blockNewEntries g m blocks acc.1 b)).Nodup
      rw [slotKeys, List.map_append]
      refine List.Nodup.append ?_ ?_ ?_
      · rw [hent1']; exact hnd
      · rw [show List.map slotKey (blockNewEntries g m blocks acc.1 b) =
            slotKeys (blockNewEntries g m blocks acc.1 b) from rfl, hkeysnew]
        exact (blockKeys3_nodup g blocks b hspb).map
          (fun k1 k2 h => congrArg Prod.snd h)
      · intro k hk1 hk2
        rw [show List.map slotKey (blockNewEntries g m blocks acc.1 b) =
            slotKeys (blockNewEntries g m blocks acc.1 b) from rfl, hkeysnew] at hk2
        obtain ⟨k3, _, hk3⟩ := List.mem_map.mp hk2
        rw [hent1'] at hk1
        obtain ⟨e, hemem, hekey⟩ := List.mem_map.mp hk1
        obtain ⟨t1, ht1mem, ht1id, ht1em⟩ := hlink e hemem
        have hetid : e.teacher_id = blockTid acc.1 b := by
          have : k.1 = blockTid acc.1 b := by rw [← hk3]
          rw [← hekey] at this
          exact this
        have ht1mem' : t1 ∈ (blockStore1 acc.1 b).teachers := by
          rw [hts']; exact List.mem_append_left _ ht1mem
        have hsame : t1 = tch := by
          have hidnd : ((blockStore1 acc.1 b).teachers.map Teacher.id).Nodup := hwf1.1
          refine List.inj_on_of_nodup_map hidnd ht1mem' htchmem ?_
          rw [ht1id, htchid, hetid]
          rfl
        rw [hsame, htchem] at ht1em
        exact hfresh ht1em

theorem fold_wf_nodup (g : Grid) (m : List (String × String)) (blocks : List Block)
    (hsp : ∀ b ∈ blocks, (blockSlotPairs g blocks b).Nodup) :
    ∀ (bs : List Block) (done : List String) (acc : Store × Nat × Nat),
    (∀ b ∈ bs, b ∈ blocks) →
    (done ++ bs.map (fun b => generate_valid_email b.name)).Nodup →
    StoreWF acc.1 →
    EntriesLinked acc.1 done →
    (slotKeys acc.1.entries).Nodup →
    (slotKeys ((bs.foldl (processBlock g m blocks) acc).1).entries).Nodup := by
  intro bs
  induction bs with
  | nil => intro done acc _ _ _ _ hnd; exact hnd
  | cons b bs ih =>
    intro done acc hmem hnodup hwf hlink hnd
    rw [List.foldl_cons]
    have hfresh : generate_valid_email b.name ∉ done := by
      intro hin
      have hdisj := (List.nodup_append.mp hnodup).2.2
      exact hdisj hin (by rw [List.map_cons]; exact List.mem_cons_self _ _)
    obtain ⟨hwf', hlink', hnd'⟩ := processBlock_inv g m blocks b done acc
      (hsp b (hmem b (List.mem_cons_self _ _))) hwf hlink hnd hfresh
    refine ih (done ++ [generate_valid_email b.name]) (processBlock g m blocks acc b)
      (fun b' hb' => hmem b' (List.mem_cons_of_mem _ hb')) ?_ hwf' hlink' hnd'
    rw [List.append_assoc]
    rw [List.map_cons] at hnodup
    exact (List.append_cons done (generate_valid_email b.name)
      (bs.map (fun b => generate_valid_email b.name))) ▸ hnodup

/-! ## Claims -/

/-- C1.  The claim says a persisted entry's `is_free` flag is true exactly
when the class text is "READING" (case-insensitive); models.py:38 documents
the same intent ("True for non-teaching periods (like 'Reading', ...)").
The code instead hard-codes `is_free=False` at timetable.py:276: ingesting
`c1grid` persists its READING period (subject inferred as "Reading") with
`is_free = false`, so the claim fails on this input. -/
theorem c1_reading_entry_is_free_false :
    (parse_teacher_timetables store0 c1grid).map
      (fun p => p.1.entries.map (fun e => (e.class_name, e.subject, e.is_free)))
    = .ok [("READING", "Reading", false)] := by rfl

/-- C2, counterexample.  The ingestion email synthesis strips characters
outside `[a-z0-9._-]` and trims leading/trailing `.`/`-`; the absence
report's inline synthesis does neither, so the two functions differ on
"Jane Doe." (`janedoe@school.edu` vs `janedoe.@school.edu`). -/
theorem c2_counterexample :
    generate_valid_email "Jane Doe." ≠ absence_teacher_email "Jane Doe." := by decide

/-- C2, amended.  The two email-synthesis rules agree exactly on the names
for which the extra steps of `generate_valid_email` are no-ops: after
lower-casing and space removal the name is nonempty, contains only
characters of `[a-z0-9._-]`, and the `.-` trim changes nothing. -/
theorem c2_amended_email_agreement (s : String)
    (hall : (pyLowerNoSpace s).all emailAllowed = true)
    (hne : (pyLowerNoSpace s).isEmpty = false)
    (hstrip : stripDotDash (pyLowerNoSpace s) = pyLowerNoSpace s) :
    generate_valid_email s = absence_teacher_email s := by
  have hfilter : (pyLowerNoSpace s).filter emailAllowed = pyLowerNoSpace s :=
    List.filter_eq_self.mpr (List.all_eq_true.mp hall)
  simp [generate_valid_email, absence_teacher_email, hfilter, hstrip, hne]

/-- Witness for C2's amended theorem at the name "Jane Doe". -/
theorem c2_amended_email_agreement_witness :
    (pyLowerNoSpace "Jane Doe").all emailAllowed = true ∧
    (pyLowerNoSpace "Jane Doe").isEmpty = false ∧
    stripDotDash (pyLowerNoSpace "Jane Doe") = pyLowerNoSpace "Jane Doe" ∧
    generate_valid_email "Jane Doe" = absence_teacher_email "Jane Doe" :=
  ⟨by decide, by decide, by decide,
   c2_amended_email_agreement "Jane Doe" (by decide) (by decide) (by decide)⟩

/-- C4, counterexample.  A cell that is exactly `"HRT - 3A"` matches the
rejection pattern `HRT\s*-?\s*\d+[A-Z]` of `is_teacher_name_cell`
(timetable.py:73), so no teacher block is produced for it: on `c4grid`
(that cell immediately above a Monday..Friday header row) discovery finds
nothing and the whole ingestion fails, contradicting the claim that a
block with a cleaned name is produced. -/
theorem c4_counterexample :
    is_teacher_name_cell "HRT - 3A" = false ∧
    discoverBlocks c4grid = [] ∧
    parse_teacher_timetables store0 c4grid =
      .error "No teacher blocks found. Please check the file format." :=
  ⟨by decide, by rfl, by rfl⟩

/-- C4, amended.  A grid cell whose stripped text is exactly `"HRT - 3A"`
is rejected by the teacher-name heuristic (the HRT-class-code pattern is an
exclusion, not a marker), so block discovery produces no block at that
cell. -/
theorem c4_hrt_classcode_cell_rejected (g : Grid) (r c : Nat)
    (h : pyStripS (cellStr (g.get r c)) = "HRT - 3A") :
    blockAt g r c = none := by
  have hf : is_teacher_name_cell "HRT - 3A" = false := by decide
  simp [blockAt, h, hf]

/-- Witness for C4's amended theorem at cell (0,1) of `c4grid`. -/
theorem c4_hrt_classcode_cell_rejected_witness :
    pyStripS (cellStr (c4grid.get 0 1)) = "HRT - 3A" ∧ blockAt c4grid 0 1 = none :=
  ⟨by decide, c4_hrt_classcode_cell_rejected c4grid 0 1 (by decide)⟩

/-- C5, counterexample.  Ingesting `c5grid` (one discovered block with zero
data rows): the block does not count toward `teachers_processed` (claim's
first half, true), but its Teacher row is created by the upsert at
timetable.py:219-224 before the entries are built, and nothing removes it,
so it IS persisted for the run — refuting the claim's second half. -/
theorem c5_counterexample :
    (parse_teacher_timetables store0 c5grid).map
      (fun p => (p.2.teachers_processed, p.1.teachers.map Teacher.email))
    = .ok (0, ["johnsmith@school.edu"]) := by rfl

/-- When ingestion succeeds, the resulting store and the teachers-processed
count are exactly those of the block fold over the entry-cleared store. -/
theorem parse_ok_spec (st : Store) (g : Grid) (st2 : Store) (res : IngestResult)
    (hok : parse_teacher_timetables st g = .ok (st2, res)) :
    st2 = ((discoverBlocks g).foldl
      (processBlock g (parse_subject_mapping g) (discoverBlocks g))
      ({ st with entries := [] }, 0, 0)).1 ∧
    res.teachers_processed = ((discoverBlocks g).foldl
      (processBlock g (parse_subject_mapping g) (discoverBlocks g))
      ({ st with entries := [] }, 0, 0)).2.1 := by
  simp only [parse_teacher_timetables] at hok
  split at hok
  · cases hok
  · injection hok with h
    rw [Prod.mk.injEq] at h
    obtain ⟨ha, hb⟩ := h
    refine ⟨ha.symm, ?_⟩
    rw [← hb]

/-- C3, counterexample.  Ingesting `c3grid` — where "John Smith" heads two
blocks that both contain a Monday 09:00-09:40 row — succeeds and persists
two entries with the identical (teacher, weekday, start, end) key, so the
claimed invariant fails for this input grid. -/
theorem c3_counterexample :
    parse_teacher_timetables store0 c3grid = .ok (c3cpair.1, c3cpair.2) ∧
    slotKeys c3cpair.1.entries =
      [(0, "Monday", "09:00", "09:40"), (0, "Monday", "09:00", "09:40")] ∧
    ¬ (slotKeys c3cpair.1.entries).Nodup :=
  ⟨by rfl, by rfl, by decide⟩

/-- C3, amended.  Over a store satisfying the schema invariants, slot
uniqueness does hold for every grid in which no two discovered blocks
synthesize the same teacher email and no block's parsed data rows repeat a
(start, end) pair — the duplicate-block / repeated-time-slot grids excluded
here are exactly the ones the counterexample shows violate the claim. -/
theorem c3_slot_uniqueness_conditional (st : Store) (g : Grid)
    (st2 : Store) (res : IngestResult)
    (hwf : StoreWF st)
    (hemails : ((discoverBlocks g).map (fun b => generate_valid_email b.name)).Nodup)
    (hslots : ∀ b ∈ discoverBlocks g, (blockSlotPairs g (discoverBlocks g) b).Nodup)
    (hok : parse_teacher_timetables st g = .ok (st2, res)) :
    (slotKeys st2.entries).Nodup := by
  obtain ⟨h1, _⟩ := parse_ok_spec st g st2 res hok
  rw [h1]
  refine fold_wf_nodup g (parse_subject_mapping g) (discoverBlocks g) hslots
    (discoverBlocks g) [] ({ st with entries := [] }, 0, 0)
    (fun b hb => hb) ?_ ?_ ?_ ?_
  · rw [List.nil_append]
    exact hemails
  · exact hwf
  · intro e he
    cases he
  · exact List.Pairwise.nil

/-- Witness for C3's amended theorem: ingesting `c1grid` (one block, one
row) into the empty store. -/
theorem c3_slot_uniqueness_conditional_witness :
    StoreWF store0 ∧
    ((discoverBlocks c1grid).map (fun b => generate_valid_email b.name)).Nodup ∧
    (∀ b ∈ discoverBlocks c1grid,
      (blockSlotPairs c1grid (discoverBlocks c1grid) b).Nodup) ∧
    parse_teacher_timetables store0 c1grid = .ok (c3wpair.1, c3wpair.2) ∧
    (slotKeys c3wpair.1.entries).Nodup :=
  ⟨⟨by decide, by decide, by decide⟩, by decide, by decide, by rfl,
   c3_slot_uniqueness_conditional store0 c1grid c3wpair.1 c3wpair.2
     ⟨by decide, by decide, by decide⟩ (by decide) (by decide) (by rfl)⟩

/-- C5, amended.  A block yielding zero entries never counts toward
`teachers_processed` (that total is exactly the number of blocks with a
nonempty cell list), but every discovered block — including zero-entry
ones — leaves an upserted Teacher row with its synthesized email in the
persisted roster. -/
theorem c5_zero_entry_block_counts_and_roster (st : Store) (g : Grid)
    (st2 : Store) (res : IngestResult)
    (hok : parse_teacher_timetables st g = .ok (st2, res)) :
    res.teachers_processed = ((discoverBlocks g).filter
      (fun b => !(blockCells g (discoverBlocks g) b).isEmpty)).length ∧
    ∀ b ∈ discoverBlocks g, ∃ t ∈ st2.teachers, t.email = generate_valid_email b.name := by
  obtain ⟨h1, h2⟩ := parse_ok_spec st g st2 res hok
  constructor
  · rw [h2, foldl_count]
    rw [Nat.zero_add]
  · intro b hb
    rw [h1]
    exact fold_email_present g (parse_subject_mapping g) (discoverBlocks g)
      (discoverBlocks g) _ b hb

/-- Witness for C5's amended theorem on `c5grid` (one zero-entry block). -/
theorem c5_zero_entry_block_counts_and_roster_witness :
    parse_teacher_timetables store0 c5grid = .ok (c5wpair.1, c5wpair.2) ∧
    c5wpair.2.teachers_processed = ((discoverBlocks c5grid).filter
      (fun b => !(blockCells c5grid (discoverBlocks c5grid) b).isEmpty)).length ∧
    ∀ b ∈ discoverBlocks c5grid,
      ∃ t ∈ c5wpair.1.teachers, t.email = generate_valid_email b.name :=
  ⟨by rfl,
   (c5_zero_entry_block_counts_and_roster store0 c5grid c5wpair.1 c5wpair.2 (by rfl)).1,
   (c5_zero_entry_block_counts_and_roster store0 c5grid c5wpair.1 c5wpair.2 (by rfl)).2⟩

/-- C9.  A successful ingestion removes every pre-existing TimetableEntry
row (none of them — identified by their primary key being below the
autoincrement watermark — survives into the new store) and only appends to
the Teacher table, so every pre-existing Teacher row, found by synthesized
email or not, is kept with its `sub_workload` and `is_admin` fields
untouched. -/
theorem c9_reingest_replaces_entries_keeps_teachers (st : Store) (g : Grid)
    (st2 : Store) (res : IngestResult)
    (hold : ∀ e ∈ st.entries, e.id < st.nextEntryId)
    (hok : parse_teacher_timetables st g = .ok (st2, res)) :
    (∀ e ∈ st.entries, e ∉ st2.entries) ∧
    (∃ ts, st2.teachers = st.teachers ++ ts) := by
  obtain ⟨h1, _⟩ := parse_ok_spec st g st2 res hok
  constructor
  · intro e he hmem2
    have hids := foldl_ids g (parse_subject_mapping g) (discoverBlocks g) st.nextEntryId
      (discoverBlocks g) ({ st with entries := [] }, 0, 0)
      (fun e' he' => by cases he') (Nat.le_refl _)
    rw [h1] at hmem2
    exact absurd (hold e he) (Nat.not_lt.mpr (hids e hmem2))
  · rw [h1]
    obtain ⟨ts, hts⟩ := foldl_teachers_mono g (parse_subject_mapping g) (discoverBlocks g)
      (discoverBlocks g) ({ st with entries := [] }, 0, 0)
    exact ⟨ts, hts⟩

/-- Witness for C9: re-ingesting `c1grid` over the prior store `c9st`
(one teacher, one old entry). -/
theorem c9_reingest_replaces_entries_keeps_teachers_witness :
    (∀ e ∈ c9st.entries, e.id < c9st.nextEntryId) ∧
    parse_teacher_timetables c9st c1grid = .ok (c9pair.1, c9pair.2) ∧
    (∀ e ∈ c9st.entries, e ∉ c9pair.1.entries) ∧
    (∃ ts, c9pair.1.teachers = c9st.teachers ++ ts) :=
  ⟨by decide, by rfl,
   (c9_reingest_replaces_entries_keeps_teachers c9st c1grid c9pair.1 c9pair.2
     (by decide) (by rfl)).1,
   (c9_reingest_replaces_entries_keeps_teachers c9st c1grid c9pair.1 c9pair.2
     (by decide) (by rfl)).2⟩

/-- C6.  Whenever some available candidate is under the workload cap and
has ever taught the requested subject, `find_substitute` returns an
available, under-cap, subject-qualified candidate whose workload is
minimal among all such candidates (in particular, never an unqualified
one). -/
theorem c6_selector_prefers_qualified (st : Store) (absentId : Nat)
    (day s e subject : String)
    (h : ∃ t ∈ availableCandidates st absentId day s e,
      t.sub_workload < MAX_SUB_WORKLOAD_PER_WEEK ∧
      hasTaughtSubject st t.id subject = true) :
    ∃ r, find_substitute st absentId day s e subject = some r ∧
      r ∈ availableCandidates st absentId day s e ∧
      r.sub_workload < MAX_SUB_WORKLOAD_PER_WEEK ∧
      hasTaughtSubject st r.id subject = true ∧
      ∀ t ∈ availableCandidates st absentId day s e,
        t.sub_workload < MAX_SUB_WORKLOAD_PER_WEEK →
        hasTaughtSubject st t.id subject = true →
        r.sub_workload ≤ t.sub_workload := by
  obtain ⟨t0, ht0A, ht0w, ht0q⟩ := h
  have hAne : (availableCandidates st absentId day s e).isEmpty = false := by
    cases hA : availableCandidates st absentId day s e with
    | nil => rw [hA] at ht0A; cases ht0A
    | cons x xs => rfl
  have ht0F : t0 ∈ (sortByWorkload (availableCandidates st absentId day s e)).filter
      (fun t => decide (t.sub_workload < MAX_SUB_WORKLOAD_PER_WEEK) &&
        hasTaughtSubject st t.id subject) := by
    refine List.mem_filter.mpr ⟨mem_sortByWorkload.mpr ht0A, ?_⟩
    rw [Bool.and_eq_true, decide_eq_true_eq]
    exact ⟨ht0w, ht0q⟩
  cases hF : (sortByWorkload (availableCandidates st absentId day s e)).filter
      (fun t => decide (t.sub_workload < MAX_SUB_WORKLOAD_PER_WEEK) &&
        hasTaughtSubject st t.id subject) with
  | nil => rw [hF] at ht0F; cases ht0F
  | cons r rest =>
    have hrF : r ∈ (sortByWorkload (availableCandidates st absentId day s e)).filter
        (fun t => decide (t.sub_workload < MAX_SUB_WORKLOAD_PER_WEEK) &&
          hasTaughtSubject st t.id subject) := by
      rw [hF]; exact List.mem_cons_self r rest
    obtain ⟨hrS, hrP⟩ := List.mem_filter.mp hrF
    rw [Bool.and_eq_true, decide_eq_true_eq] at hrP
    have hpw : ((sortByWorkload (availableCandidates st absentId day s e)).filter
        (fun t => decide (t.sub_workload < MAX_SUB_WORKLOAD_PER_WEEK) &&
          hasTaughtSubject st t.id subject)).Pairwise wle :=
      (pairwise_sortByWorkload _).filter _
    rw [hF] at hpw
    refine ⟨r, ?_, mem_sortByWorkload.mp hrS, hrP.1, hrP.2, ?_⟩
    · simp only [find_substitute]
      rw [hAne, hF]
      rfl
    · intro t htA htw htq
      have htF : t ∈ (sortByWorkload (availableCandidates st absentId day s e)).filter
          (fun t => decide (t.sub_workload < MAX_SUB_WORKLOAD_PER_WEEK) &&
            hasTaughtSubject st t.id subject) := by
        refine List.mem_filter.mpr ⟨mem_sortByWorkload.mpr htA, ?_⟩
        rw [Bool.and_eq_true, decide_eq_true_eq]
        exact ⟨htw, htq⟩
      rw [hF] at htF
      rcases List.mem_cons.mp htF with rfl | ht'
      · exact Nat.le_refl _
      · exact (List.pairwise_cons.mp hpw).1 t ht'

/-- Witness for C6 on the concrete store `wStore` (absent teacher 0;
teacher 2 is available, under cap, and has taught Maths). -/
theorem c6_selector_prefers_qualified_witness :
    (∃ t ∈ availableCandidates wStore 0 "Monday" "09:00" "09:40",
      t.sub_workload < MAX_SUB_WORKLOAD_PER_WEEK ∧
      hasTaughtSubject wStore t.id "Maths" = true) ∧
    (∃ r, find_substitute wStore 0 "Monday" "09:00" "09:40" "Maths" = some r ∧
      r ∈ availableCandidates wStore 0 "Monday" "09:00" "09:40" ∧
      r.sub_workload < MAX_SUB_WORKLOAD_PER_WEEK ∧
      hasTaughtSubject wStore r.id "Maths" = true ∧
      ∀ t ∈ availableCandidates wStore 0 "Monday" "09:00" "09:40",
        t.sub_workload < MAX_SUB_WORKLOAD_PER_WEEK →
        hasTaughtSubject wStore t.id "Maths" = true →
        r.sub_workload ≤ t.sub_workload) :=
  ⟨by decide,
   c6_selector_prefers_qualified wStore 0 "Monday" "09:00" "09:40" "Maths" (by decide)⟩

/-- C7.  When some available candidate is strictly under the workload cap,
the selector never returns a candidate at or above the cap (in fact both
priority filters require the cap, so any returned candidate is under it). -/
theorem c7_never_returns_overcap (st : Store) (absentId : Nat)
    (day s e subject : String) (r : Teacher)
    (_hex : ∃ t ∈ availableCandidates st absentId day s e,
      t.sub_workload < MAX_SUB_WORKLOAD_PER_WEEK)
    (hr : find_substitute st absentId day s e subject = some r) :
    r.sub_workload < MAX_SUB_WORKLOAD_PER_WEEK := by
  clear _hex
  simp only [find_substitute] at hr
  by_cases hA : (availableCandidates st absentId day s e).isEmpty = true
  · rw [if_pos hA] at hr; cases hr
  · rw [if_neg hA] at hr
    cases hF1 : (sortByWorkload (availableCandidates st absentId day s e)).filter
        (fun t => decide (t.sub_workload < MAX_SUB_WORKLOAD_PER_WEEK) &&
          hasTaughtSubject st t.id subject) with
    | cons t rest =>
      rw [hF1] at hr
      have hr2 : some t = some r := hr
      injection hr2 with hr3
      subst hr3
      have ht : t ∈ (sortByWorkload (availableCandidates st absentId day s e)).filter
          (fun t => decide (t.sub_workload < MAX_SUB_WORKLOAD_PER_WEEK) &&
            hasTaughtSubject st t.id subject) := by
        rw [hF1]; exact List.mem_cons_self t rest
      have hp := (List.mem_filter.mp ht).2
      rw [Bool.and_eq_true, decide_eq_true_eq] at hp
      exact hp.1
    | nil =>
      rw [hF1] at hr
      cases hF2 : (sortByWorkload (availableCandidates st absentId day s e)).filter
          (fun t => decide (t.sub_workload < MAX_SUB_WORKLOAD_PER_WEEK)) with
      | cons t rest =>
        rw [hF2] at hr
        have hr2 : some t = some r := hr
        injection hr2 with hr3
        subst hr3
        have ht : t ∈ (sortByWorkload (availableCandidates st absentId day s e)).filter
            (fun t => decide (t.sub_workload < MAX_SUB_WORKLOAD_PER_WEEK)) := by
          rw [hF2]; exact List.mem_cons_self t rest
        have hp := (List.mem_filter.mp ht).2
        rw [decide_eq_true_eq] at hp
        exact hp
      | nil =>
        rw [hF2] at hr
        have hr2 : (none : Option Teacher) = some r := hr
        cases hr2

/-- Witness for C7 on `wStore`: teacher 2 (workload 1) is available and
under the cap, and the selector indeed returns teacher 2. -/
theorem c7_never_returns_overcap_witness :
    (∃ t ∈ availableCandidates wStore 0 "Monday" "09:00" "09:40",
      t.sub_workload < MAX_SUB_WORKLOAD_PER_WEEK) ∧
    find_substitute wStore 0 "Monday" "09:00" "09:40" "Maths" = some wT2 ∧
    wT2.sub_workload < MAX_SUB_WORKLOAD_PER_WEEK :=
  ⟨by decide, by decide,
   c7_never_returns_overcap wStore 0 "Monday" "09:00" "09:40" "Maths" wT2
     (by decide) (by decide)⟩

/-- C8.  When the teacher name resolves, status "Busy" with no reason makes
`report_full_day_absence` fail with the reason-required error, and the
error carries the input store unchanged: the check at absence.py:115 runs
before any row is inserted or any workload incremented. -/
theorem c8_busy_without_reason_rejected (st : Store) (teacher_name : String) (d : PyDate)
    (h : (st.teachers.find? (fun t => t.email == absence_teacher_email teacher_name)).isSome
      = true) :
    report_full_day_absence st teacher_name d "Busy" none =
      .error (.reasonRequired, st) := by
  obtain ⟨a, ha⟩ := Option.isSome_iff_exists.mp h
  simp only [report_full_day_absence]
  rw [ha]
  rfl

/-- Witness for C8 on `wStore` and the name "Jane Doe". -/
theorem c8_busy_without_reason_rejected_witness :
    (wStore.teachers.find? (fun t => t.email == absence_teacher_email "Jane Doe")).isSome
      = true ∧
    report_full_day_absence wStore "Jane Doe" ⟨2026, 10, 12⟩ "Busy" none =
      .error (.reasonRequired, wStore) :=
  ⟨by decide, c8_busy_without_reason_rejected wStore "Jane Doe" ⟨2026, 10, 12⟩ (by decide)⟩

/-- C10.  When the teacher name does not resolve, the call fails with the
teacher-not-found error even for status "Busy" with no reason: the lookup
at absence.py:108-113 precedes the reason validation at absence.py:115. -/
theorem c10_not_found_precedes_reason_check (st : Store) (teacher_name : String) (d : PyDate)
    (h : st.teachers.find? (fun t => t.email == absence_teacher_email teacher_name) = none) :
    report_full_day_absence st teacher_name d "Busy" none =
      .error (.teacherNotFound, st) := by
  simp only [report_full_day_absence]
  rw [h]

/-- Witness for C10 on the empty store. -/
theorem c10_not_found_precedes_reason_check_witness :
    store0.teachers.find? (fun t => t.email == absence_teacher_email "Jane Doe") = none ∧
    report_full_day_absence store0 "Jane Doe" ⟨2026, 10, 12⟩ "Busy" none =
      .error (.teacherNotFound, store0) :=
  ⟨by decide, c10_not_found_precedes_reason_check store0 "Jane Doe" ⟨2026, 10, 12⟩ (by decide)⟩

end TSA
